import Mathlib

/-!
Shallow embedding of the status-go local-pairing client subsystem
(`server/pairing/payload_manager.go` and `server/pairing/client.go`).

Byte slices are modelled as `List Nat`; Go `nil` byte slices and empty
slices are both the empty list.  Go maps (`map[string][]byte`) are
modelled as association lists whose list order stands for the map's
iteration order (which Go leaves unspecified).  External collaborators
that live in the same repository but outside the analysed sources
(`eth-node/keystore`, `account/generator`, `protocol/common` crypto,
`multiaccounts.Database`, and the protobuf wire codec) are modelled as
explicit function parameters collected in the `Ext` record below.
-/

namespace Pairing

abbrev Bytes := List Nat

/-- `EncryptionPayload` from payload_manager.go: the plain text and
encrypted text of payload data, plus the one-way `locked` flag. -/
structure EncryptionPayload where
  plain : Bytes
  encrypted : Bytes
  locked : Bool
deriving Repr, DecidableEq

/-- A freshly allocated `EncryptionPayload` (Go `new(EncryptionPayload)`). -/
def newEncryptionPayload : EncryptionPayload :=
  { plain := [], encrypted := [], locked := false }

/-- `EncryptionPayload.lock` from payload_manager.go. -/
def EncryptionPayload.lock (ep : EncryptionPayload) : EncryptionPayload :=
  { ep with locked := true }

/-- The state of a `PayloadEncryptionManager`: the AES session key and
the two payload slots. -/
structure PemState where
  aesKey : Bytes
  toSend : EncryptionPayload
  received : EncryptionPayload
deriving Repr, DecidableEq

/-- `NewPayloadEncryptionManager`: both slots freshly allocated. -/
def newPayloadEncryptionManager (aesKey : Bytes) : PemState :=
  { aesKey := aesKey, toSend := newEncryptionPayload, received := newEncryptionPayload }

/-- `PayloadEncryptionManager.ToSend`: nil when the outbound slot is
locked, otherwise the outbound ciphertext. -/
def PemState.ToSend (pem : PemState) : Bytes :=
  if pem.toSend.locked then [] else pem.toSend.encrypted

/-- `PayloadEncryptionManager.Received`: the source tests the OUTBOUND
slot's lock flag (`pem.toSend.locked`), then returns the inbound
plaintext. -/
def PemState.Received (pem : PemState) : Bytes :=
  if pem.toSend.locked then [] else pem.received.plain

/-- `PayloadEncryptionManager.ResetPayload`: both slots replaced by
fresh (unlocked, empty) allocations. -/
def PemState.ResetPayload (pem : PemState) : PemState :=
  { pem with toSend := newEncryptionPayload, received := newEncryptionPayload }

/-- `PayloadEncryptionManager.LockPayload`: locks both slots. -/
def PemState.LockPayload (pem : PemState) : PemState :=
  { pem with toSend := pem.toSend.lock, received := pem.received.lock }

/-- `PayloadEncryptionManager.Encrypt` after a successful
`common.Encrypt` call that produced ciphertext `ep`: stores plaintext
and ciphertext in the outbound slot (the `locked` flag is untouched). -/
def PemState.encryptOk (pem : PemState) (data ep : Bytes) : PemState :=
  { pem with toSend := { pem.toSend with plain := data, encrypted := ep } }

/-- `PayloadEncryptionManager.Decrypt` after a successful
`common.Decrypt` call that produced plaintext `pd`: stores ciphertext
and plaintext in the inbound slot (the `locked` flag is untouched). -/
def PemState.decryptOk (pem : PemState) (data pd : Bytes) : PemState :=
  { pem with received := { pem.received with encrypted := data, plain := pd } }

/-- One observable operation on a `PayloadEncryptionManager`.  The
`encrypt`/`decrypt` constructors carry the bytes produced by the
underlying `common.Encrypt`/`common.Decrypt` call when it succeeds;
`encryptFail`/`decryptFail` stand for calls whose crypto step errored
(the source then returns before touching any slot); `encryptPlain`
never touches the slots. -/
inductive PemOp where
  | encrypt (data ep : Bytes)
  | encryptFail (data : Bytes)
  | decrypt (data pd : Bytes)
  | decryptFail (data : Bytes)
  | encryptPlain (data : Bytes)
  | lockPayload
  | resetPayload
deriving Repr, DecidableEq

/-- Effect of one operation on the manager state, read off the source
of each method. -/
def PemState.step (pem : PemState) : PemOp → PemState
  | .encrypt data ep => pem.encryptOk data ep
  | .encryptFail _ => pem
  | .decrypt data pd => pem.decryptOk data pd
  | .decryptFail _ => pem
  | .encryptPlain _ => pem
  | .lockPayload => pem.LockPayload
  | .resetPayload => pem.ResetPayload

/-- Run a sequence of operations left to right. -/
def PemState.run (pem : PemState) : List PemOp → PemState
  | [] => pem
  | op :: ops => (pem.step op).run ops

/-- The account-metadata record (`multiaccounts.Account`).  Its type
lives outside the analysed sources; the spec treats it as a small
record of identity fields keyed by `keyUID`, so the fields beyond the
key-UID are abstracted into a single `info` field. -/
structure MultiAccount where
  keyUID : String
  info : Nat
deriving Repr, DecidableEq

/-- The result of parsing a key file as JSON into
`keystore.EncryptedKeyJSONV3`: the `address` field plus the remaining
fields abstracted into `rest`. -/
structure KeyRecord where
  address : String
  rest : Nat
deriving Repr, DecidableEq

/-- One `protobuf.LocalPairingPayload_Key` message: a filename and raw
key-file bytes. -/
structure LocalPairingPayloadKey where
  name : String
  data : Bytes
deriving Repr, DecidableEq

/-- The `protobuf.LocalPairingPayload` message.  The
`multiaccounts.Account` ↔ `protobuf.MultiAccount` conversions
(`ToProtobuf`/`FromProtobuf`, outside the analysed sources) are
modelled as the identity on the abstract record, with `Option`
standing for a nil pointer. -/
structure LocalPairingPayload where
  keys : List LocalPairingPayloadKey
  multiaccount : Option MultiAccount
  password : String
deriving Repr, DecidableEq

/-- Modelled from the spec: the external collaborators used by the
pairing subsystem, whose code is not among the analysed sources:
`encoding/json` parsing of a key file into `EncryptedKeyJSONV3`
(`parseKeyFile`), `eth-node/keystore.DecryptKey` (`decryptKey`,
returning an abstract decrypted-key handle; the spec only requires it
to decrypt the record with the password — it is not required to check
the JSON address-field length), `account/generator.
ValidateKeystoreExtendedKey` (`validateExtendedKey`), the protobuf
wire codec `proto.Marshal`/`proto.Unmarshal` (`penc`/`pdec`),
authenticated symmetric encryption `common.Encrypt`/`common.Decrypt`
(`encrypt data key` for one sampled random draw, `decrypt data key`),
and the sync-message handler (`prepareRawMessage`,
`handleRawMessage`). -/
structure Ext where
  parseKeyFile : Bytes → Except String KeyRecord
  decryptKey : Bytes → String → Except String Nat
  validateExtendedKey : Nat → Except String Unit
  penc : LocalPairingPayload → Bytes
  pdec : Bytes → Except String LocalPairingPayload
  encrypt : Bytes → Bytes → Except String Bytes
  decrypt : Bytes → Bytes → Except String Bytes
  prepareRawMessage : String → Except String Bytes
  handleRawMessage : MultiAccount → String → String → Bytes → Except String Unit

/-- The shared `AccountPayload`: keys mapping (association list whose
order models Go map iteration order), optional metadata record,
password. -/
structure AccountPayload where
  keys : List (String × Bytes)
  multiaccount : Option MultiAccount
  password : String
deriving Repr, DecidableEq

/-- `AccountPayload.ResetPayload`: reset to the zero value. -/
def AccountPayload.ResetPayload (_ap : AccountPayload) : AccountPayload :=
  { keys := [], multiaccount := none, password := "" }

/-- Go map update `m[k] = v` on the association-list model: replace
the entry for `k` if present, otherwise append. -/
def mapInsert (m : List (String × Bytes)) (k : String) (v : Bytes) :
    List (String × Bytes) :=
  match m with
  | [] => [(k, v)]
  | (k', v') :: rest =>
    if k' = k then (k, v) :: rest else (k', v') :: mapInsert rest k v

/-- Go map read `m[k]` on the association-list model. -/
def mapLookup (m : List (String × Bytes)) (k : String) : Option Bytes :=
  match m with
  | [] => none
  | (k', v') :: rest => if k' = k then some v' else mapLookup rest k

/-- `AccountPayloadMarshaller.accountKeysToProtobuf`: the keys mapping
as a list of protobuf key messages, in iteration order. -/
def accountKeysToProtobuf (ap : AccountPayload) : List LocalPairingPayloadKey :=
  ap.keys.map (fun kv => { name := kv.1, data := kv.2 })

/-- `AccountPayloadMarshaller.MarshalToProtobuf`: build the
`LocalPairingPayload` message and encode it (`proto.Marshal` modelled
as the total `penc`). -/
def MarshalToProtobuf (ext : Ext) (ap : AccountPayload) : Bytes :=
  ext.penc
    { keys := accountKeysToProtobuf ap
      multiaccount := ap.multiaccount
      password := ap.password }

/-- `AccountPayloadMarshaller.accountKeysFromProtobuf`: make the map
when nil (the empty association list plays the nil map), then insert
every message entry in order — a merge, not a replacement. -/
def accountKeysFromProtobuf (keys : List (String × Bytes))
    (pbKeys : List LocalPairingPayloadKey) : List (String × Bytes) :=
  pbKeys.foldl (fun m k => mapInsert m k.name k.data) keys

/-- `AccountPayloadMarshaller.UnmarshalProtobuf`: decode, then merge
keys, replace the metadata record
(`multiaccountFromProtobuf`), and overwrite the password. -/
def UnmarshalProtobuf (ext : Ext) (ap : AccountPayload) (data : Bytes) :
    Except String AccountPayload :=
  match ext.pdec data with
  | .error e => .error e
  | .ok pb =>
    .ok
      { keys := accountKeysFromProtobuf ap.keys pb.keys
        multiaccount := pb.multiaccount
        password := pb.password }

/-- One filesystem node seen by `filepath.Walk`: its containing
directory (`filepath.Dir path`), its base name (`fileInfo.Name()`),
its content, and whether it is a directory. -/
structure FsEntry where
  dir : String
  name : String
  content : Bytes
  isDir : Bool
deriving Repr, DecidableEq

/-- Overwriting file write (`ioutil.WriteFile`): replace the entry at
the same directory and name, else append a new file. -/
def fsWrite (fs : List FsEntry) (d n : String) (data : Bytes) : List FsEntry :=
  match fs with
  | [] => [{ dir := d, name := n, content := data, isDir := false }]
  | f :: rest =>
    if f.dir = d ∧ f.name = n ∧ f.isDir = false then
      { dir := d, name := n, content := data, isDir := false } :: rest
    else
      f :: fsWrite rest d n data

/-- Modelled from the spec: `multiaccounts.Database.GetAccount` (not
among the analysed sources) looks the account-metadata record up by
key-UID in the local account database. -/
def dbGetAccount (db : List MultiAccount) (keyUID : String) :
    Except String MultiAccount :=
  match db.find? (fun a => a.keyUID == keyUID) with
  | some a => .ok a
  | none => .error "account not found"

/-- Modelled from the spec: `multiaccounts.Database.SaveAccount` (not
among the analysed sources) saves the account-metadata record keyed by
key-UID (an upsert). -/
def dbSaveAccount (db : List MultiAccount) (acc : MultiAccount) :
    List MultiAccount :=
  match db with
  | [] => [acc]
  | a :: rest =>
    if a.keyUID = acc.keyUID then acc :: rest else a :: dbSaveAccount rest acc

/-- The state an `AccountPayloadRepository` reads and writes: the
shared payload, the keystore directory tree, the account database, and
the configured keystore path and key-UID. -/
structure RepoState where
  payload : AccountPayload
  fs : List FsEntry
  db : List MultiAccount
  keystorePath : String
  keyUID : String
deriving Repr, DecidableEq

/-- The body of the `fileWalker` closure in
`AccountPayloadRepository.loadKeys`: skip directories and anything not
an immediate child of the keystore path; read the file; parse it as a
key record; reject an address field whose length is not 40; record the
raw bytes under the file's base name. -/
def fileWalkerStep (ext : Ext) (keyStorePath : String)
    (keys : List (String × Bytes)) (f : FsEntry) :
    Except String (List (String × Bytes)) :=
  if f.isDir = true ∨ f.dir ≠ keyStorePath then .ok keys
  else
    match ext.parseKeyFile f.content with
    | .error e => .error ("failed to read key file: " ++ e)
    | .ok accountKey =>
      if accountKey.address.length ≠ 40 then
        .error ("account key address has invalid length " ++ accountKey.address)
      else
        .ok (mapInsert keys f.name f.content)

/-- `filepath.Walk` over the tree with the `fileWalker` closure:
visit every node in order, stopping at the first error. -/
def walkKeys (ext : Ext) (keyStorePath : String) :
    List FsEntry → List (String × Bytes) → Except String (List (String × Bytes))
  | [], keys => .ok keys
  | f :: fsRest, keys =>
    match fileWalkerStep ext keyStorePath keys f with
    | .error e => .error e
    | .ok keys' => walkKeys ext keyStorePath fsRest keys'

/-- `AccountPayloadRepository.loadKeys`: start from a fresh empty map,
walk the keystore path, and wrap a walk error. -/
def loadKeys (ext : Ext) (st : RepoState) : Except String RepoState :=
  match walkKeys ext st.keystorePath st.fs [] with
  | .error e => .error ("cannot traverse key store folder: " ++ e)
  | .ok keys => .ok { st with payload := { st.payload with keys := keys } }

/-- `AccountPayloadRepository.validateKeys`: decrypt every entry with
the password and validate the recovered extended key, stopping at the
first failure. -/
def validateKeys (ext : Ext) (keys : List (String × Bytes)) (password : String) :
    Except String Unit :=
  match keys with
  | [] => .ok ()
  | (_, key) :: rest =>
    match ext.decryptKey key password with
    | .error e => .error e
    | .ok k =>
      match ext.validateExtendedKey k with
      | .error e => .error e
      | .ok _ => validateKeys ext rest password

/-- `AccountPayloadRepository.LoadFromSource`: load the key files,
validate them with the payload's password, then look the metadata
record up by key-UID. -/
def LoadFromSource (ext : Ext) (st : RepoState) : Except String RepoState :=
  match loadKeys ext st with
  | .error e => .error e
  | .ok st1 =>
    match validateKeys ext st1.payload.keys st1.payload.password with
    | .error e => .error e
    | .ok _ =>
      match dbGetAccount st1.db st1.keyUID with
      | .error e => .error e
      | .ok acc =>
        .ok { st1 with payload := { st1.payload with multiaccount := some acc } }

/-- The last path component (`filepath.Split`'s file part) of the
keystore path: everything after the final slash. -/
def lastDir (path : String) : String :=
  String.mk ((path.data.reverse.takeWhile (fun c => c ≠ '/')).reverse)

/-- The write loop of `AccountPayloadRepository.storeKeys`: for each
entry in iteration order, parse it as a key record, reject an address
field whose length is not 40, then write the file — note each entry is
checked only when its own turn to be written comes, so files written
for earlier entries remain on disk when a later entry fails. -/
def writeKeysLoop (ext : Ext) (d : String) :
    List (String × Bytes) → List FsEntry → List FsEntry × Option String
  | [], fs => (fs, none)
  | (n, data) :: rest, fs =>
    match ext.parseKeyFile data with
    | .error e => (fs, some ("failed to read key file: " ++ e))
    | .ok accountKey =>
      if accountKey.address.length ≠ 40 then
        (fs, some ("account key address has invalid length " ++ accountKey.address))
      else
        writeKeysLoop ext d rest (fsWrite fs d n data)

/-- `AccountPayloadRepository.storeKeys`: reject an empty keystore
path; when the configured path's last component is the bare name
"keystore", require a known key-UID and write into a per-account
subdirectory; then run the write loop.  (`os.MkdirAll` is not
modelled: directory creation is not observed by any claim.) -/
def storeKeys (ext : Ext) (st : RepoState) : RepoState × Option String :=
  if st.keystorePath = "" then (st, some "keyStorePath can not be empty")
  else
    let resolved : Except String String :=
      if lastDir st.keystorePath = "keystore" then
        match st.payload.multiaccount with
        | none => .error "no known Key UID"
        | some acc =>
          if acc.keyUID = "" then .error "no known Key UID"
          else .ok (st.keystorePath ++ "/" ++ acc.keyUID)
      else .ok st.keystorePath
    match resolved with
    | .error e => (st, some e)
    | .ok d =>
      match writeKeysLoop ext d st.payload.keys st.fs with
      | (fs', err) => ({ st with fs := fs' }, err)

/-- `AccountPayloadRepository.storeMultiAccount`: save the metadata
record (`*apr.multiaccount` dereferences a nil pointer when no record
is held; that panic is modelled as an error outcome). -/
def storeMultiAccount (st : RepoState) : RepoState × Option String :=
  match st.payload.multiaccount with
  | none => (st, some "nil multiaccount")
  | some acc => ({ st with db := dbSaveAccount st.db acc }, none)

/-- `AccountPayloadRepository.StoreToSource`: validate every key with
the password, then write the key files, then save the metadata
record. -/
def StoreToSource (ext : Ext) (st : RepoState) : RepoState × Option String :=
  match validateKeys ext st.payload.keys st.payload.password with
  | .error e => (st, some e)
  | .ok _ =>
    match storeKeys ext st with
    | (st1, some e) => (st1, some e)
    | (st1, none) => storeMultiAccount st1

/-- The state of an `AccountPayloadManager`: its encryption manager
and the repository state (the repository embeds the shared
`AccountPayload`). -/
structure AccountManagerState where
  pem : PemState
  repo : RepoState
deriving Repr, DecidableEq

/-- `AccountPayloadManager.Mount`: load from source, marshal the
(shared) payload to wire form, encrypt it into the outbound slot. -/
def Mount (ext : Ext) (st : AccountManagerState) :
    AccountManagerState × Option String :=
  match LoadFromSource ext st.repo with
  | .error e => (st, some e)
  | .ok repo' =>
    let st1 : AccountManagerState := { st with repo := repo' }
    let pb := MarshalToProtobuf ext repo'.payload
    match ext.encrypt pb st1.pem.aesKey with
    | .error e => (st1, some e)
    | .ok ep => ({ st1 with pem := st1.pem.encryptOk pb ep }, none)

/-- `AccountPayloadManager.Receive`: decrypt into the inbound slot,
unmarshal the accessor's result (`apm.Received()`) into the shared
payload, then persist with `StoreToSource`. -/
def Receive (ext : Ext) (st : AccountManagerState) (data : Bytes) :
    AccountManagerState × Option String :=
  match ext.decrypt data st.pem.aesKey with
  | .error e => (st, some e)
  | .ok pd =>
    let st1 : AccountManagerState := { st with pem := st.pem.decryptOk data pd }
    match UnmarshalProtobuf ext st1.repo.payload st1.pem.Received with
    | .error e => (st1, some e)
    | .ok payload' =>
      let st2 : AccountManagerState :=
        { st1 with repo := { st1.repo with payload := payload' } }
      match StoreToSource ext st2.repo with
      | (repo', err) => ({ st2 with repo := repo' }, err)

/-- Modelled from the spec: the `Mode` type is declared outside the
analysed sources; the spec describes an enum of Sending and Receiving
carried as an integer, with any other value possible. -/
inductive Mode where
  | sending
  | receiving
  | unknown (n : Nat)
deriving Repr, DecidableEq

/-- Modelled from the spec: the endpoint path constants are declared
outside the analysed sources; only their distinctness matters. -/
def pairingReceiveAccount : String := "/pairing/receiveAccount"

/-- Modelled from the spec: see `pairingReceiveAccount`. -/
def pairingSendAccount : String := "/pairing/sendAccount"

/-- Modelled from the spec: see `pairingReceiveAccount`. -/
def pairingSyncDeviceReceive : String := "/pairing/syncDeviceReceive"

/-- Modelled from the spec: see `pairingReceiveAccount`. -/
def pairingSyncDeviceSend : String := "/pairing/syncDeviceSend"

/-- Modelled from the spec: see `pairingReceiveAccount`. -/
def pairingChallenge : String := "/pairing/challenge"

/-- One HTTP exchange performed by the client: a POST with its body,
or a GET with its optional challenge-proof header (the header carries
the ciphertext whose base58 encoding the source attaches). -/
inductive HttpCall where
  | post (path : String) (body : Bytes)
  | get (path : String) (header : Option Bytes)
deriving Repr, DecidableEq

/-- The remote side of the HTTP exchanges: a POST yields a status or a
transport error, a GET yields a status and body or a transport
error. -/
structure Http where
  post : String → Bytes → Except String Nat
  get : String → Option Bytes → Except String (Nat × Bytes)

/-- The state of a pairing `Client`: the account payload manager, the
raw-message manager's own encryption manager and payload blob (the
raw-message manager shares only the `AccountPayload`, which lives in
`apm.repo.payload`), the session mode, the held challenge, and the
log of HTTP exchanges performed. -/
structure ClientState where
  apm : AccountManagerState
  rawPem : PemState
  rawPayload : Bytes
  rawKeystorePath : String
  serverMode : Mode
  serverChallenge : Option Bytes
  requests : List HttpCall

/-- `Client.sendAccountData`: mount the account manager, POST its
outbound ciphertext to the receive-account path, require status 200,
and on success lock the account manager's payload. -/
def sendAccountData (ext : Ext) (http : Http) (cs : ClientState) :
    ClientState × Option String :=
  match Mount ext cs.apm with
  | (apm', some e) => ({ cs with apm := apm' }, some e)
  | (apm', none) =>
    let body := apm'.pem.ToSend
    let cs1 : ClientState :=
      { cs with
        apm := apm'
        requests := cs.requests ++ [HttpCall.post pairingReceiveAccount body] }
    match http.post pairingReceiveAccount body with
    | .error e => (cs1, some e)
    | .ok status =>
      if status ≠ 200 then (cs1, some "status not ok")
      else
        ({ cs1 with apm := { cs1.apm with pem := cs1.apm.pem.LockPayload } },
          none)

/-- `RawMessageRepository.LoadFromSource`: require a known key-UID on
the shared `AccountPayload`, then ask the sync-message handler to
prepare the blob. -/
def rawLoadFromSource (ext : Ext) (cs : ClientState) : Except String Bytes :=
  match cs.apm.repo.payload.multiaccount with
  | none => .error "no known KeyUID when loading raw messages"
  | some acc =>
    if acc.keyUID = "" then .error "no known KeyUID when loading raw messages"
    else ext.prepareRawMessage acc.keyUID

/-- `RawMessagePayloadManager.Mount`: load the blob, then encrypt it
into the raw manager's outbound slot. -/
def rawMount (ext : Ext) (cs : ClientState) : ClientState × Option String :=
  match rawLoadFromSource ext cs with
  | .error e => (cs, some e)
  | .ok payload =>
    let cs1 : ClientState := { cs with rawPayload := payload }
    match ext.encrypt payload cs1.rawPem.aesKey with
    | .error e => (cs1, some e)
    | .ok ep => ({ cs1 with rawPem := cs1.rawPem.encryptOk payload ep }, none)

/-- `Client.sendSyncDeviceData`: mount the raw manager, POST its
outbound ciphertext to the sync-device-receive path, require status
200 — and, unlike the account push, do not lock on success. -/
def sendSyncDeviceData (ext : Ext) (http : Http) (cs : ClientState) :
    ClientState × Option String :=
  match rawMount ext cs with
  | (cs1, some e) => (cs1, some e)
  | (cs1, none) =>
    let body := cs1.rawPem.ToSend
    let cs2 : ClientState :=
      { cs1 with
        requests := cs1.requests ++ [HttpCall.post pairingSyncDeviceReceive body] }
    match http.post pairingSyncDeviceReceive body with
    | .error e => (cs2, some e)
    | .ok status =>
      if status ≠ 200 then (cs2, some "status not ok") else (cs2, none)

/-- The challenge-proof header both pull flows build: when a challenge
is held, `EncryptPlain` it with the account manager's session key
(both flows call `c.PayloadManager.EncryptPlain`). -/
def challengeHeader (ext : Ext) (cs : ClientState) :
    Except String (Option Bytes) :=
  match cs.serverChallenge with
  | none => .ok none
  | some c =>
    match ext.encrypt c cs.apm.pem.aesKey with
    | .error e => .error e
    | .ok ec => .ok (some ec)

/-- `Client.receiveAccountData`: GET the send-account path with the
challenge proof attached when held, require status 200, and hand the
body to the account manager's `Receive`. -/
def receiveAccountData (ext : Ext) (http : Http) (cs : ClientState) :
    ClientState × Option String :=
  match challengeHeader ext cs with
  | .error e => (cs, some e)
  | .ok header =>
    let cs1 : ClientState :=
      { cs with requests := cs.requests ++ [HttpCall.get pairingSendAccount header] }
    match http.get pairingSendAccount header with
    | .error e => (cs1, some e)
    | .ok (status, body) =>
      if status ≠ 200 then (cs1, some "status not ok")
      else
        match Receive ext cs1.apm body with
        | (apm', err) => ({ cs1 with apm := apm' }, err)

/-- `RawMessagePayloadManager.Receive` followed by
`RawMessageRepository.StoreToSource`: decrypt into the raw manager's
inbound slot, copy the accessor's result into the repository blob,
require a known metadata record, and hand everything to the
sync-message handler. -/
def rawReceive (ext : Ext) (cs : ClientState) (data : Bytes) :
    ClientState × Option String :=
  match ext.decrypt data cs.rawPem.aesKey with
  | .error e => (cs, some e)
  | .ok pd =>
    let cs1 : ClientState := { cs with rawPem := cs.rawPem.decryptOk data pd }
    let cs2 : ClientState := { cs1 with rawPayload := cs1.rawPem.Received }
    match cs2.apm.repo.payload.multiaccount with
    | none => (cs2, some "no known multiaccount when storing raw messages")
    | some acc =>
      match ext.handleRawMessage acc cs2.apm.repo.payload.password
          cs2.rawKeystorePath cs2.rawPayload with
      | .error e => (cs2, some e)
      | .ok _ => (cs2, none)

/-- `Client.receiveSyncDeviceData`: GET the sync-device-send path with
the challenge proof attached when held, require status 200, and hand
the body to the raw manager's `Receive`. -/
def receiveSyncDeviceData (ext : Ext) (http : Http) (cs : ClientState) :
    ClientState × Option String :=
  match challengeHeader ext cs with
  | .error e => (cs, some e)
  | .ok header =>
    let cs1 : ClientState :=
      { cs with
        requests := cs.requests ++ [HttpCall.get pairingSyncDeviceSend header] }
    match http.get pairingSyncDeviceSend header with
    | .error e => (cs1, some e)
    | .ok (status, body) =>
      if status ≠ 200 then (cs1, some "status not ok")
      else rawReceive ext cs1 body

/-- `Client.getChallenge`: GET the challenge path, require status 200,
and store the body as the held challenge. -/
def getChallenge (http : Http) (cs : ClientState) :
    ClientState × Option String :=
  let cs1 : ClientState :=
    { cs with requests := cs.requests ++ [HttpCall.get pairingChallenge none] }
  match http.get pairingChallenge none with
  | .error e => (cs1, some e)
  | .ok (status, body) =>
    if status ≠ 200 then (cs1, some "status not ok")
    else ({ cs1 with serverChallenge := some body }, none)

/-- `Client.PairAccount`: branch on the session mode; any value other
than Receiving or Sending fails with the unrecognised-server-mode
error before any flow runs. -/
def PairAccount (ext : Ext) (http : Http) (cs : ClientState) :
    ClientState × Option String :=
  match cs.serverMode with
  | .receiving => sendAccountData ext http cs
  | .sending =>
    match getChallenge http cs with
    | (cs1, some e) => (cs1, some e)
    | (cs1, none) => receiveAccountData ext http cs1
  | .unknown _ => (cs, some "unrecognised server mode")

/-- `Client.PairSyncDevice`: branch on the session mode; any value
other than Receiving or Sending fails with the
unrecognised-server-mode error before any flow runs. -/
def PairSyncDevice (ext : Ext) (http : Http) (cs : ClientState) :
    ClientState × Option String :=
  match cs.serverMode with
  | .receiving => sendSyncDeviceData ext http cs
  | .sending => receiveSyncDeviceData ext http cs
  | .unknown _ => (cs, some "unrecognised server mode")

/-- The lock performed at the end of a successful account push
(`c.PayloadManager.LockPayload()`): it reaches the account manager's
encryption manager only. -/
def lockAccountPayload (cs : ClientState) : ClientState :=
  { cs with apm := { cs.apm with pem := cs.apm.pem.LockPayload } }

/-- `LockPayload` invoked on the raw-message manager: it reaches the
raw manager's own encryption manager only. -/
def lockRawPayload (cs : ClientState) : ClientState :=
  { cs with rawPem := cs.rawPem.LockPayload }

/-- `Except` success test. -/
def isOkE {ε α : Type} : Except ε α → Bool
  | .ok _ => true
  | .error _ => false

/-- The load procedure exactly as claim C7 lists its steps: walk the
keystore directory non-recursively, read and parse every immediate
child, reject a wrong-length address, collect keyed by filename, and
then look the metadata record up by key-UID — with no
password-validation step.  This definition follows the claim's words,
to be compared with `LoadFromSource` (from the source). -/
def loadFromSourceClaimed (ext : Ext) (st : RepoState) : Except String RepoState :=
  match walkKeys ext st.keystorePath st.fs [] with
  | .error e => .error ("cannot traverse key store folder: " ++ e)
  | .ok keys =>
    match dbGetAccount st.db st.keyUID with
    | .error e => .error e
    | .ok acc =>
      .ok { st with payload := { st.payload with keys := keys, multiaccount := some acc } }

/-- The collection loop of the amended claim C7: for each listed file
in order, parse it as a key record, reject a wrong-length address,
and record it under its base name. -/
def specCollect (ext : Ext) :
    List FsEntry → List (String × Bytes) → Except String (List (String × Bytes))
  | [], keys => .ok keys
  | f :: rest, keys =>
    match ext.parseKeyFile f.content with
    | .error e => .error ("failed to read key file: " ++ e)
    | .ok accountKey =>
      if accountKey.address.length ≠ 40 then
        .error ("account key address has invalid length " ++ accountKey.address)
      else specCollect ext rest (mapInsert keys f.name f.content)

/-- The immediate non-directory children of the keystore path, in
visit order. -/
def immediateChildren (keyStorePath : String) (fs : List FsEntry) : List FsEntry :=
  fs.filter (fun f => !f.isDir && f.dir == keyStorePath)

/-- The load procedure as the amended claim C7 words it: collect
exactly the immediate non-directory children of the keystore path,
parsing each and rejecting a wrong-length address, keyed by filename;
validate every collected entry by decrypting it with the configured
password; then look the metadata record up by key-UID.  This
definition follows the amended claim's words, to be compared with
`LoadFromSource` (from the source). -/
def loadFromSourceSpec (ext : Ext) (st : RepoState) : Except String RepoState :=
  match specCollect ext (immediateChildren st.keystorePath st.fs) [] with
  | .error e => .error ("cannot traverse key store folder: " ++ e)
  | .ok keys =>
    match validateKeys ext keys st.payload.password with
    | .error e => .error e
    | .ok _ =>
      match dbGetAccount st.db st.keyUID with
      | .error e => .error e
      | .ok acc =>
        .ok { st with payload := { st.payload with keys := keys, multiaccount := some acc } }

/-- A 40-character address string for concrete witnesses. -/
def addr40 : String := "0000000000000000000000000000000000000000"

/-- A concrete, fully benign instantiation of the external
collaborators, used by concrete witnesses: every key file parses to a
40-character address, decryption and validation succeed, encryption
appends a marker byte, inbound decryption and wire decoding fail (the
flows under test never reach them). -/
def extBase : Ext where
  parseKeyFile := fun _ => .ok { address := addr40, rest := 0 }
  decryptKey := fun _ _ => .ok 0
  validateExtendedKey := fun _ => .ok ()
  penc := fun _ => [7]
  pdec := fun _ => .error "unexpected decode"
  encrypt := fun d _ => .ok (d ++ [9])
  decrypt := fun _ _ => .error "decryption failed"
  prepareRawMessage := fun _ => .ok [5]
  handleRawMessage := fun _ _ _ _ => .ok ()

/-- A concrete repository state used by concrete witnesses: two key
entries, a known metadata record, an empty keystore directory and an
empty database. -/
def stRepoW : RepoState where
  payload :=
    { keys := [("a.json", [1]), ("b.json", [2])]
      multiaccount := some { keyUID := "uid", info := 0 }
      password := "pw" }
  fs := []
  db := []
  keystorePath := "kp"
  keyUID := "uid"

/-- External collaborators for the C1 counterexample: the entry with
content `[2]` parses to a 3-character address, every entry decrypts
and validates with the password (the spec does not require
password-decryption to check the JSON address-field length). -/
def extC1 : Ext :=
  { extBase with
    parseKeyFile := fun b =>
      if b = [2] then .ok { address := "bad", rest := 0 }
      else .ok { address := addr40, rest := 0 } }

/-- External collaborators for the C2 witness, second branch: inbound
decryption succeeds, wire decoding fails. -/
def extC2 : Ext :=
  { extBase with
    decrypt := fun _ _ => .ok [1]
    pdec := fun _ => .error "unmarshal failed" }

/-- External collaborators for the C7 counterexample: every key file
parses to a 40-character address but fails password decryption. -/
def extC7 : Ext :=
  { extBase with decryptKey := fun _ _ => .error "wrong password" }

/-- A concrete keystore file for witnesses: an immediate child of the
keystore path `kp`. -/
def fileA : FsEntry :=
  { dir := "kp", name := "a.json", content := [1], isDir := false }

/-- The repository state for the C7 counterexample: one well-formed
key file and a database holding the metadata record. -/
def stC7 : RepoState :=
  { stRepoW with
    fs := [fileA]
    db := [{ keyUID := "uid", info := 0 }] }

/-- A concrete account-manager state used by concrete witnesses. -/
def stManW : AccountManagerState where
  pem := newPayloadEncryptionManager [0]
  repo := stRepoW

/-- A concrete remote that answers every exchange with status 200 and
an empty body. -/
def httpW : Http where
  post := fun _ _ => .ok 200
  get := fun _ _ => .ok (200, [])

/-- A concrete client state used by concrete witnesses: the account
manager over a keystore with one well-formed key file, a fresh
raw-message manager, Receiving mode, no challenge, no exchanges
yet. -/
def csW : ClientState where
  apm :=
    { pem := newPayloadEncryptionManager [0]
      repo :=
        { payload :=
            { keys := []
              multiaccount := some { keyUID := "uid", info := 0 }
              password := "pw" }
          fs := [fileA]
          db := [{ keyUID := "uid", info := 0 }]
          keystorePath := "kp"
          keyUID := "uid" } }
  rawPem := newPayloadEncryptionManager [0]
  rawPayload := []
  rawKeystorePath := "kp"
  serverMode := Mode.receiving
  serverChallenge := none
  requests := []

/-- The account-manager state `Mount` produces from `csW` under
`extBase`: keys loaded, metadata looked up, wire form `[7]` encrypted
to `[7, 9]` in the outbound slot. -/
def apmMountedW : AccountManagerState where
  pem :=
    { aesKey := [0]
      toSend := { plain := [7], encrypted := [7, 9], locked := false }
      received := newEncryptionPayload }
  repo :=
    { payload :=
        { keys := [("a.json", [1])]
          multiaccount := some { keyUID := "uid", info := 0 }
          password := "pw" }
      fs := [fileA]
      db := [{ keyUID := "uid", info := 0 }]
      keystorePath := "kp"
      keyUID := "uid" }

/-- The client state for the C8 witness: like `csW` but with an
unrecognised server-mode value. -/
def csC8 : ClientState :=
  { csW with serverMode := Mode.unknown 7 }

/-- External collaborators for the C1 witness: password decryption
fails on every entry. -/
def extC1w : Ext :=
  { extBase with decryptKey := fun _ _ => .error "cannot decrypt" }

/-- A concrete `AccountPayload` with two keys, a metadata record and a
password, for round-trip witnesses. -/
def apC6 : AccountPayload where
  keys := [("a.json", [1]), ("b.json", [2])]
  multiaccount := some { keyUID := "uid", info := 3 }
  password := "pw"

/-- The wire message `apC6` marshals to. -/
def msgC6 : LocalPairingPayload where
  keys := accountKeysToProtobuf apC6
  multiaccount := apC6.multiaccount
  password := apC6.password

/-- External collaborators for the C6 witness: the wire codec decodes
back to `msgC6`. -/
def extC6 : Ext :=
  { extBase with pdec := fun _ => .ok msgC6 }

/-- A concrete wire message naming only `b.json`, for the C10
witness. -/
def pbC10 : LocalPairingPayload where
  keys := [{ name := "b.json", data := [9] }]
  multiaccount := none
  password := ""

/-- External collaborators for the C10 witness: the wire codec decodes
to `pbC10`. -/
def extC10 : Ext :=
  { extBase with pdec := fun _ => .ok pbC10 }

end Pairing

namespace Pairing

lemma step_locked_of_locked (pem : PemState) (op : PemOp)
    (hop : op ≠ PemOp.resetPayload)
    (hts : pem.toSend.locked = true) (hrc : pem.received.locked = true) :
    (pem.step op).toSend.locked = true ∧ (pem.step op).received.locked = true := by
  cases op with
  | encrypt data ep => exact ⟨hts, hrc⟩
  | encryptFail data => exact ⟨hts, hrc⟩
  | decrypt data pd => exact ⟨hts, hrc⟩
  | decryptFail data => exact ⟨hts, hrc⟩
  | encryptPlain data => exact ⟨hts, hrc⟩
  | lockPayload => exact ⟨rfl, rfl⟩
  | resetPayload => exact absurd rfl hop

lemma run_locked_of_locked (ops : List PemOp) (pem : PemState)
    (hops : ∀ op ∈ ops, op ≠ PemOp.resetPayload)
    (hts : pem.toSend.locked = true) (hrc : pem.received.locked = true) :
    (pem.run ops).toSend.locked = true ∧ (pem.run ops).received.locked = true := by
  induction ops generalizing pem with
  | nil => exact ⟨hts, hrc⟩
  | cons op rest ih =>
    have hop := hops op (List.mem_cons_self op rest)
    have hstep := step_locked_of_locked pem op hop hts hrc
    exact ih (pem.step op) (fun o ho => hops o (List.mem_cons_of_mem op ho)) hstep.1 hstep.2

lemma lockPayload_locked (pem : PemState) :
    (pem.LockPayload).toSend.locked = true ∧ (pem.LockPayload).received.locked = true :=
  ⟨rfl, rfl⟩

/-- C3: for every `PayloadEncryptionManager` state and any prior
contents of the two slots, after `LockPayload()` every subsequent call
to `ToSend()` and to `Received()` returns empty, across every
subsequent operation sequence that does not invoke `ResetPayload()`. -/
theorem c3_lock_accessors_empty_until_reset (pem : PemState) (ops : List PemOp)
    (hops : ∀ op ∈ ops, op ≠ PemOp.resetPayload) :
    ((pem.LockPayload).run ops).ToSend = [] ∧
    ((pem.LockPayload).run ops).Received = [] := by
  have h := run_locked_of_locked ops pem.LockPayload hops rfl rfl
  simp [PemState.ToSend, PemState.Received, h.1]

/-- Witness for C3 at a concrete manager and operation sequence. -/
theorem c3_witness :
    (((newPayloadEncryptionManager [0]).LockPayload).run
        [PemOp.encrypt [1] [2], PemOp.decrypt [3] [4]]).ToSend = [] ∧
    (((newPayloadEncryptionManager [0]).LockPayload).run
        [PemOp.encrypt [1] [2], PemOp.decrypt [3] [4]]).Received = [] :=
  c3_lock_accessors_empty_until_reset (newPayloadEncryptionManager [0])
    [PemOp.encrypt [1] [2], PemOp.decrypt [3] [4]] (by decide)

/-- C5 as stated is false at this concrete input: after
`LockPayload()`, a `ResetPayload()` followed by an `Encrypt` makes
`ToSend()` return non-empty data again on the same instance. -/
theorem c5_reset_rearms_counterexample :
    (((newPayloadEncryptionManager []).LockPayload).run
        [PemOp.resetPayload, PemOp.encrypt [1] [2]]).ToSend = [2] ∧
    (((newPayloadEncryptionManager []).LockPayload).run
        [PemOp.resetPayload, PemOp.encrypt [1] [2]]).ToSend ≠ [] := by
  decide

/-- C5 amended: once locked, both slots stay locked under every later
operation of the instance other than `ResetPayload` — `LockPayload` is
idempotent, and only `ResetPayload` re-arms the instance by replacing
the slots with fresh unlocked ones. -/
theorem c5_lock_idempotent_irreversible (pem : PemState) (ops : List PemOp)
    (hops : ∀ op ∈ ops, op ≠ PemOp.resetPayload) :
    (pem.LockPayload).LockPayload = pem.LockPayload ∧
    ((pem.LockPayload).run ops).toSend.locked = true ∧
    ((pem.LockPayload).run ops).received.locked = true ∧
    ((pem.LockPayload).ResetPayload).toSend.locked = false ∧
    ((pem.LockPayload).ResetPayload).received.locked = false := by
  refine ⟨?_, ?_, ?_, rfl, rfl⟩
  · simp [PemState.LockPayload, EncryptionPayload.lock]
  · exact (run_locked_of_locked ops pem.LockPayload hops rfl rfl).1
  · exact (run_locked_of_locked ops pem.LockPayload hops rfl rfl).2

/-- Witness for the amended C5 at a concrete manager and operation
sequence. -/
theorem c5_witness :
    ((newPayloadEncryptionManager [0]).LockPayload).LockPayload
      = (newPayloadEncryptionManager [0]).LockPayload ∧
    (((newPayloadEncryptionManager [0]).LockPayload).run
        [PemOp.decrypt [3] [4]]).toSend.locked = true ∧
    (((newPayloadEncryptionManager [0]).LockPayload).run
        [PemOp.decrypt [3] [4]]).received.locked = true ∧
    (((newPayloadEncryptionManager [0]).LockPayload).ResetPayload).toSend.locked = false ∧
    (((newPayloadEncryptionManager [0]).LockPayload).ResetPayload).received.locked = false :=
  c5_lock_idempotent_irreversible (newPayloadEncryptionManager [0])
    [PemOp.decrypt [3] [4]] (by decide)

/-- C8: for every `ServerMode` value that is neither Sending nor
Receiving, both `PairAccount()` and `PairSyncDevice()` return the
unrecognised-server-mode error with the client state unchanged — no
HTTP exchange is recorded and no flow runs. -/
theorem c8_unsupported_mode_errors (ext : Ext) (http : Http) (cs : ClientState)
    (h1 : cs.serverMode ≠ Mode.sending) (h2 : cs.serverMode ≠ Mode.receiving) :
    PairAccount ext http cs = (cs, some "unrecognised server mode") ∧
    PairSyncDevice ext http cs = (cs, some "unrecognised server mode") := by
  cases h : cs.serverMode with
  | sending => exact absurd h h1
  | receiving => exact absurd h h2
  | unknown n =>
    constructor
    · unfold PairAccount; rw [h]
    · unfold PairSyncDevice; rw [h]

/-- Witness for C8 at a concrete client state with mode value 7. -/
theorem c8_witness :
    PairAccount extBase httpW csC8 = (csC8, some "unrecognised server mode") ∧
    PairSyncDevice extBase httpW csC8 = (csC8, some "unrecognised server mode") :=
  c8_unsupported_mode_errors extBase httpW csC8 (by decide) (by decide)

/-- C9: the account manager and the raw-message manager of one client
hold separate encryption state — locking the account manager (as the
successful account push does) leaves the raw manager's `ToSend()` and
`Received()` unchanged and vice versa, for every state of the two
managers; moreover `sendAccountData` never touches the raw manager's
slots at all. -/
theorem c9_managers_separate_state (ext : Ext) (http : Http) (cs : ClientState) :
    ((lockAccountPayload cs).rawPem.ToSend = cs.rawPem.ToSend ∧
     (lockAccountPayload cs).rawPem.Received = cs.rawPem.Received) ∧
    ((lockRawPayload cs).apm.pem.ToSend = cs.apm.pem.ToSend ∧
     (lockRawPayload cs).apm.pem.Received = cs.apm.pem.Received) ∧
    (sendAccountData ext http cs).1.rawPem = cs.rawPem := by
  refine ⟨⟨rfl, rfl⟩, ⟨rfl, rfl⟩, ?_⟩
  unfold sendAccountData
  split
  · rfl
  · dsimp only
    split
    · rfl
    · split
      · rfl
      · rfl

/-- C1 amended: `StoreToSource` is all-or-nothing with respect to
password validation — whenever any key entry fails the
decrypt-with-password / extended-key validation, the call returns that
error having persisted no key file and no account-metadata record,
because `validateKeys` runs over every entry before any write; the
address-length re-check inside `storeKeys`, however, happens per entry
interleaved with the writes (see the counterexample). -/
theorem c1_store_password_validation_all_or_nothing (ext : Ext) (st : RepoState)
    (e : String)
    (h : validateKeys ext st.payload.keys st.payload.password = .error e) :
    StoreToSource ext st = (st, some e) := by
  unfold StoreToSource
  rw [h]

/-- Witness for the amended C1: with password decryption failing, the
call errors with the keystore directory and database untouched. -/
theorem c1_witness :
    StoreToSource extC1w stRepoW = (stRepoW, some "cannot decrypt") :=
  c1_store_password_validation_all_or_nothing extC1w stRepoW "cannot decrypt" rfl

/-- C1 as stated is false at this concrete input: both keys decrypt
and validate with the password, but the second entry's address field
has length 3, so `StoreToSource` returns an error having already
written the first key file — validation is not completed before the
first write. -/
theorem c1_partial_write_counterexample :
    (StoreToSource extC1 stRepoW).2
      = some "account key address has invalid length bad" ∧
    (StoreToSource extC1 stRepoW).1.fs
      = [{ dir := "kp", name := "a.json", content := [1], isDir := false }] ∧
    stRepoW.fs = [] := by
  decide

/-- C2: `Receive` leaves the keystore files and the account database
unmodified whenever decryption or unmarshalling fails — a failed
decrypt returns exactly the decryption error with the whole manager
state unchanged, and a failed unmarshal returns that error with the
repository (files, database, payload) unchanged, because
`StoreToSource` is invoked only after both succeed. -/
theorem c2_receive_failure_leaves_source_unmodified (ext : Ext)
    (st : AccountManagerState) (data : Bytes) :
    (∀ e, ext.decrypt data st.pem.aesKey = .error e →
      Receive ext st data = (st, some e)) ∧
    (∀ pd e, ext.decrypt data st.pem.aesKey = .ok pd →
      ext.pdec ((st.pem.decryptOk data pd).Received) = .error e →
      (Receive ext st data).1.repo = st.repo ∧
      (Receive ext st data).2 = some e) := by
  constructor
  · intro e h
    unfold Receive
    rw [h]
  · intro pd e h1 h2
    unfold Receive
    rw [h1]
    dsimp only
    unfold UnmarshalProtobuf
    rw [h2]
    exact ⟨rfl, rfl⟩

/-- Witness for C2: a failing decrypt and a failing unmarshal, each at
a concrete manager state. -/
theorem c2_witness :
    Receive extBase stManW [9] = (stManW, some "decryption failed") ∧
    (Receive extC2 stManW [9]).1.repo = stManW.repo ∧
    (Receive extC2 stManW [9]).2 = some "unmarshal failed" :=
  ⟨(c2_receive_failure_leaves_source_unmodified extBase stManW [9]).1
      "decryption failed" rfl,
   (c2_receive_failure_leaves_source_unmodified extC2 stManW [9]).2
      [1] "unmarshal failed" rfl rfl⟩

lemma walkKeys_eq_specCollect (ext : Ext) (p : String) (fs : List FsEntry) :
    ∀ keys, walkKeys ext p fs keys = specCollect ext (immediateChildren p fs) keys := by
  induction fs with
  | nil => intro keys; rfl
  | cons f rest ih =>
    intro keys
    by_cases hskip : f.isDir = true ∨ f.dir ≠ p
    · have hfilter : (!f.isDir && f.dir == p) = false := by
        rcases hskip with h | h
        · simp [h]
        · simp [h]
      unfold walkKeys fileWalkerStep
      rw [if_pos hskip]
      unfold immediateChildren
      rw [List.filter_cons, hfilter]
      exact ih keys
    · have h1 : f.isDir = false := Bool.eq_false_iff.mpr (fun h => hskip (Or.inl h))
      have h2 : f.dir = p := by
        by_contra hne
        exact hskip (Or.inr hne)
      have hfilter : (!f.isDir && f.dir == p) = true := by simp [h1, h2]
      unfold walkKeys fileWalkerStep
      rw [if_neg hskip]
      unfold immediateChildren
      rw [List.filter_cons, hfilter]
      simp only [if_true]
      unfold specCollect
      cases hparse : ext.parseKeyFile f.content with
      | error e => rfl
      | ok accountKey =>
        dsimp only
        by_cases hlen : accountKey.address.length ≠ 40
        · rw [if_pos hlen, if_pos hlen]
        · rw [if_neg hlen, if_neg hlen]
          exact ih (mapInsert keys f.name f.content)

/-- C7 corrected: `LoadFromSource` collects exactly the immediate
non-directory children of the keystore directory, parsing each as a
key record and rejecting any address field whose length is not 40,
keyed by filename; it then additionally validates every collected
entry by decrypting it with the configured password, and only then
looks the account-metadata record up by key-UID. -/
theorem c7_load_steps (ext : Ext) (st : RepoState) :
    LoadFromSource ext st = loadFromSourceSpec ext st := by
  unfold LoadFromSource loadFromSourceSpec loadKeys
  rw [walkKeys_eq_specCollect]
  cases specCollect ext (immediateChildren st.keystorePath st.fs) [] with
  | error e => rfl
  | ok keys => rfl

/-- C7 as stated is false at this concrete input: one well-formed key
file whose password decryption fails makes `LoadFromSource` return the
decryption error, while the claim's step list (which has no
password-validation step) succeeds on the same state. -/
theorem c7_counterexample :
    LoadFromSource extC7 stC7 = .error "wrong password" ∧
    isOkE (loadFromSourceClaimed extC7 stC7) = true :=
  ⟨rfl, rfl⟩

lemma mapLookup_mapInsert (m : List (String × Bytes)) (k n : String) (v : Bytes) :
    mapLookup (mapInsert m k v) n = if k = n then some v else mapLookup m n := by
  induction m with
  | nil =>
    by_cases h : k = n <;> simp [mapInsert, mapLookup, h]
  | cons kv rest ih =>
    obtain ⟨k', v'⟩ := kv
    by_cases h1 : k' = k
    · subst h1
      by_cases h2 : k' = n <;> simp [mapInsert, mapLookup, h2]
    · by_cases h2 : k' = n
      · subst h2
        have hkn : ¬ k = k' := fun hh => h1 hh.symm
        simp [mapInsert, mapLookup, h1, hkn]
      · simp [mapInsert, mapLookup, h1, h2, ih]

lemma mem_of_mapLookup_eq_some (m : List (String × Bytes)) (n : String) (v : Bytes)
    (h : mapLookup m n = some v) : (n, v) ∈ m := by
  induction m with
  | nil => simp [mapLookup] at h
  | cons kv rest ih =>
    obtain ⟨k', v'⟩ := kv
    by_cases hk : k' = n
    · subst hk
      simp [mapLookup] at h
      simp [h]
    · simp only [mapLookup, if_neg hk] at h
      exact List.mem_cons_of_mem _ (ih h)

lemma forall_ne_of_mapLookup_eq_none (m : List (String × Bytes)) (n : String)
    (h : mapLookup m n = none) : ∀ p ∈ m, p.1 ≠ n := by
  induction m with
  | nil => intro p hp; cases hp
  | cons kv rest ih =>
    obtain ⟨k', v'⟩ := kv
    by_cases hk : k' = n
    · simp [mapLookup, hk] at h
    · intro p hp
      rcases List.mem_cons.mp hp with rfl | hp'
      · exact hk
      · exact ih (by simpa [mapLookup, hk] using h) p hp'

lemma accountKeysFromProtobuf_lookup_notMem (pbKeys : List LocalPairingPayloadKey)
    (m : List (String × Bytes)) (n : String)
    (hn : ∀ k ∈ pbKeys, k.name ≠ n) :
    mapLookup (accountKeysFromProtobuf m pbKeys) n = mapLookup m n := by
  induction pbKeys generalizing m with
  | nil => rfl
  | cons k rest ih =>
    have hk : k.name ≠ n := hn k (List.mem_cons_self k rest)
    have hrest : ∀ k' ∈ rest, k'.name ≠ n :=
      fun k' h => hn k' (List.mem_cons_of_mem k h)
    show mapLookup (accountKeysFromProtobuf (mapInsert m k.name k.data) rest) n
      = mapLookup m n
    rw [ih (mapInsert m k.name k.data) hrest, mapLookup_mapInsert]
    simp [hk]

lemma accountKeysFromProtobuf_lookup_mem (pbKeys : List LocalPairingPayloadKey)
    (m : List (String × Bytes)) (k : LocalPairingPayloadKey)
    (hmem : k ∈ pbKeys)
    (hnodup : (pbKeys.map LocalPairingPayloadKey.name).Nodup) :
    mapLookup (accountKeysFromProtobuf m pbKeys) k.name = some k.data := by
  induction pbKeys generalizing m with
  | nil => cases hmem
  | cons hd rest ih =>
    rcases List.mem_cons.mp hmem with rfl | hmem'
    · have hnotin : k.name ∉ rest.map LocalPairingPayloadKey.name :=
        (List.nodup_cons.mp hnodup).1
      have hrest : ∀ k' ∈ rest, k'.name ≠ k.name := by
        intro k' hk' heq
        exact hnotin (heq ▸ List.mem_map_of_mem LocalPairingPayloadKey.name hk')
      show mapLookup (accountKeysFromProtobuf (mapInsert m k.name k.data) rest) k.name
        = some k.data
      rw [accountKeysFromProtobuf_lookup_notMem rest _ _ hrest, mapLookup_mapInsert]
      simp
    · have hnd : (rest.map LocalPairingPayloadKey.name).Nodup :=
        (List.nodup_cons.mp hnodup).2
      show mapLookup (accountKeysFromProtobuf (mapInsert m hd.name hd.data) rest) k.name
        = some k.data
      exact ih (mapInsert m hd.name hd.data) hmem' hnd

lemma accountKeysToProtobuf_names (ap : AccountPayload) :
    (accountKeysToProtobuf ap).map LocalPairingPayloadKey.name
      = ap.keys.map Prod.fst := by
  simp [accountKeysToProtobuf, List.map_map]

/-- C6: round-trip of the account marshaller — marshalling an
`AccountPayload` holding a keys mapping with distinct names, a
metadata record and a password, then unmarshalling into a fresh
`AccountPayload`, yields the same keys mapping (order irrelevant: all
lookups agree), the same metadata record, and the same password,
provided the external protobuf codec round-trips the message. -/
theorem c6_marshal_roundtrip (ext : Ext) (ap : AccountPayload) (m : MultiAccount)
    (hm : ap.multiaccount = some m)
    (hnodup : (ap.keys.map Prod.fst).Nodup)
    (hcodec : ext.pdec (MarshalToProtobuf ext ap) =
      .ok { keys := accountKeysToProtobuf ap
            multiaccount := ap.multiaccount
            password := ap.password }) :
    ∃ ap', UnmarshalProtobuf ext
        { keys := [], multiaccount := none, password := "" }
        (MarshalToProtobuf ext ap) = .ok ap' ∧
      (∀ n, mapLookup ap'.keys n = mapLookup ap.keys n) ∧
      ap'.multiaccount = some m ∧
      ap'.password = ap.password := by
  refine ⟨{ keys := accountKeysFromProtobuf [] (accountKeysToProtobuf ap)
            multiaccount := ap.multiaccount
            password := ap.password }, ?_, ?_, hm, rfl⟩
  · unfold UnmarshalProtobuf
    rw [hcodec]
  · intro n
    cases hcase : mapLookup ap.keys n with
    | none =>
      have hforall := forall_ne_of_mapLookup_eq_none ap.keys n hcase
      have hk : ∀ k ∈ accountKeysToProtobuf ap, k.name ≠ n := by
        intro k hkmem
        obtain ⟨kv, hkv, hfk⟩ := List.mem_map.mp hkmem
        have := hforall kv hkv
        rw [← hfk]
        exact this
      rw [accountKeysFromProtobuf_lookup_notMem _ _ _ hk]
      rfl
    | some v =>
      have hmem := mem_of_mapLookup_eq_some ap.keys n v hcase
      have hmm : ({ name := n, data := v } : LocalPairingPayloadKey)
          ∈ accountKeysToProtobuf ap := by
        unfold accountKeysToProtobuf
        exact List.mem_map_of_mem
          (fun kv => ({ name := kv.1, data := kv.2 } : LocalPairingPayloadKey)) hmem
      have hnames : ((accountKeysToProtobuf ap).map LocalPairingPayloadKey.name).Nodup := by
        rw [accountKeysToProtobuf_names]
        exact hnodup
      exact accountKeysFromProtobuf_lookup_mem _ [] _ hmm hnames

/-- Witness for C6 at the concrete payload with keys a.json and
b.json, metadata record uid, and password pw. -/
theorem c6_witness :
    ∃ ap', UnmarshalProtobuf extC6
        { keys := [], multiaccount := none, password := "" }
        (MarshalToProtobuf extC6 apC6) = .ok ap' ∧
      (∀ n, mapLookup ap'.keys n = mapLookup apC6.keys n) ∧
      ap'.multiaccount = some { keyUID := "uid", info := 3 } ∧
      ap'.password = apC6.password :=
  c6_marshal_roundtrip extC6 apC6 { keyUID := "uid", info := 3 } rfl (by decide) rfl

/-- C10: `UnmarshalProtobuf` merges rather than replaces the keys
mapping — when decoding succeeds, every key present before the call
and not named in the message keeps its old bytes, while every entry
named in the message takes the message's bytes. -/
theorem c10_unmarshal_merges (ext : Ext) (ap : AccountPayload) (data : Bytes)
    (pb : LocalPairingPayload)
    (_hne : ap.keys ≠ [])
    (hpb : ext.pdec data = .ok pb)
    (hnodup : (pb.keys.map LocalPairingPayloadKey.name).Nodup) :
    ∃ ap', UnmarshalProtobuf ext ap data = .ok ap' ∧
      (∀ n, (∀ k ∈ pb.keys, k.name ≠ n) →
        mapLookup ap'.keys n = mapLookup ap.keys n) ∧
      (∀ k ∈ pb.keys, mapLookup ap'.keys k.name = some k.data) := by
  refine ⟨{ keys := accountKeysFromProtobuf ap.keys pb.keys
            multiaccount := pb.multiaccount
            password := pb.password }, ?_, ?_, ?_⟩
  · unfold UnmarshalProtobuf
    rw [hpb]
  · intro n hn
    exact accountKeysFromProtobuf_lookup_notMem pb.keys ap.keys n hn
  · intro k hk
    exact accountKeysFromProtobuf_lookup_mem pb.keys ap.keys k hk hnodup

/-- Witness for C10: a message naming only b.json merged into a
payload holding a.json and b.json. -/
theorem c10_witness :
    ∃ ap', UnmarshalProtobuf extC10 apC6 [0] = .ok ap' ∧
      (∀ n, (∀ k ∈ pbC10.keys, k.name ≠ n) →
        mapLookup ap'.keys n = mapLookup apC6.keys n) ∧
      (∀ k ∈ pbC10.keys, mapLookup ap'.keys k.name = some k.data) :=
  c10_unmarshal_merges extC10 apC6 [0] pbC10 (by decide) rfl (by decide)

/-- C4: in Receiving mode, a successful push (status 200) makes the
account flow call `LockPayload()`, after which `ToSend()` returns
empty, and the POST to the receive-account path is recorded exactly
once; a successful raw-message push does not lock, so its `ToSend()`
still returns the ciphertext afterwards. -/
theorem c4_push_lock_asymmetry (ext : Ext) (http : Http)
    (cs : ClientState) (apm1 : AccountManagerState)
    (hmount : Mount ext cs.apm = (apm1, none))
    (hpost : http.post pairingReceiveAccount apm1.pem.ToSend = .ok 200)
    (csb : ClientState) (p ep : Bytes)
    (hload : rawLoadFromSource ext csb = .ok p)
    (henc : ext.encrypt p csb.rawPem.aesKey = .ok ep)
    (hunlocked : csb.rawPem.toSend.locked = false)
    (hpostb : http.post pairingSyncDeviceReceive ep = .ok 200) :
    ((sendAccountData ext http cs).2 = none ∧
     (sendAccountData ext http cs).1.apm.pem.toSend.locked = true ∧
     (sendAccountData ext http cs).1.apm.pem.ToSend = [] ∧
     (sendAccountData ext http cs).1.requests
        = cs.requests ++ [HttpCall.post pairingReceiveAccount apm1.pem.ToSend]) ∧
    ((sendSyncDeviceData ext http csb).2 = none ∧
     (sendSyncDeviceData ext http csb).1.rawPem.toSend.locked = false ∧
     (sendSyncDeviceData ext http csb).1.rawPem.ToSend = ep) := by
  constructor
  · unfold sendAccountData
    rw [hmount]
    dsimp only
    rw [hpost]
    dsimp only
    rw [if_neg (by simp)]
    exact ⟨rfl, rfl, rfl, rfl⟩
  · unfold sendSyncDeviceData rawMount
    rw [hload]
    dsimp only
    rw [henc]
    dsimp only
    simp only [PemState.ToSend, PemState.encryptOk, hunlocked]
    rw [show (if false = true then ([] : Bytes) else ep) = ep from rfl]
    rw [hpostb]
    dsimp only
    rw [if_neg (by simp)]
    exact ⟨rfl, rfl, rfl⟩

/-- Witness for C4 at a concrete client whose keystore holds one
well-formed key and whose remote answers every exchange with 200. -/
theorem c4_witness :
    (sendAccountData extBase httpW csW).2 = none ∧
    (sendAccountData extBase httpW csW).1.apm.pem.ToSend = [] ∧
    (sendSyncDeviceData extBase httpW csW).2 = none ∧
    (sendSyncDeviceData extBase httpW csW).1.rawPem.ToSend = [5, 9] :=
  have h := c4_push_lock_asymmetry extBase httpW csW apmMountedW rfl rfl
    csW [5] [5, 9] rfl rfl rfl rfl
  ⟨h.1.1, h.1.2.2.1, h.2.1, h.2.2.2⟩

end Pairing
